import Mathlib

/-!
Shallow embedding of `k8s_prometheus_analyzer/monitor.py` (function
`analyze_usage` and its helpers), for verifying the natural-language
specification of the repository against the code.

Modelling conventions:
* A Prometheus result entry `{"metric": {"pod": p, "namespace": n},
  "value": [ts, str_val]}` is modelled by `Sample`: `pod`/`ns` are the
  optional labels and `value` is the stringified `value[1]`; `none`
  models a missing key (Python `KeyError` on direct subscript, `None`
  from `.get`).
* Python float values are modelled by exact fractions `Q` (an integer
  numerator over a natural denominator, not normalised); `float(s)` on
  a decimal literal string becomes `parseFloat : String → Option Q`,
  with `none` modelling the `ValueError` raised on a non-numeric
  string. All inputs exercised by the claims are exactly representable
  decimals, where exact fraction comparison agrees with IEEE double
  comparison.
* A raised, uncaught exception is modelled by `Option.none` at the
  result type: `analyze_usage` returns `none` when one of the three
  dict comprehensions (lines 59-61 of monitor.py) raises, since those
  run outside the `try` block of the per-pod loop.
* Python dicts built by the comprehensions are modelled by ordered
  entry lists with last-write-wins lookup (`dictGet`).
-/

namespace Monitor

/-! ### Exact fractions standing in for Python floats -/

/-- An exact fraction `num / den`, not normalised. Every value built
by the program has a positive denominator. -/
structure Q where
  num : ℤ
  den : ℕ
deriving DecidableEq, Repr

/-- The fraction `n / d`. -/
def qmk (n : ℤ) (d : ℕ) : Q := ⟨n, d⟩

/-- Addition of fractions. -/
def qadd (a b : Q) : Q := ⟨a.num * b.den + b.num * a.den, a.den * b.den⟩

/-- Multiplication of fractions. -/
def qmul (a b : Q) : Q := ⟨a.num * b.num, a.den * b.den⟩

/-- Negation of a fraction. -/
def qneg (a : Q) : Q := ⟨-a.num, a.den⟩

/-- Reciprocal of a fraction (sign moved to the numerator). -/
def qinv (a : Q) : Q :=
  if 0 ≤ a.num then ⟨(a.den : ℤ), a.num.toNat⟩ else ⟨-(a.den : ℤ), (-a.num).toNat⟩

/-- Division of fractions. -/
def qdiv (a b : Q) : Q := qmul a (qinv b)

/-- Strict comparison by cross-multiplication (denominators are
positive for every value the program builds). -/
def qlt (a b : Q) : Bool := a.num * (b.den : ℤ) < b.num * (a.den : ℤ)

/-- Value equality by cross-multiplication. -/
def qeqb (a b : Q) : Bool := decide (a.num * (b.den : ℤ) = b.num * (a.den : ℤ))

/-! ### The data model -/

/-- One raw time-series entry as consumed by `analyze_usage`:
the `pod` and `namespace` labels of `metric`, and the stringified
second component of `value`. -/
structure Sample where
  pod : Option String
  ns : Option String
  value : Option String
deriving DecidableEq, Repr

/-- One output record of `analyze_usage` (the dict appended to
`recommendations` at lines 116-125 of monitor.py). -/
structure Recommendation where
  ns : String
  pod_name : String
  cpu_usage : String
  cpu_percentage : String
  memory_usage : String
  memory_percentage : String
  suggested_optimization : String
  reason : String
deriving DecidableEq, Repr

/-! ### Parsing numeric strings (model of Python `float(s)`) -/

/-- Strip a leading sign; return whether it was a minus. -/
def splitSign : List Char → Bool × List Char
  | '-' :: cs => (true, cs)
  | '+' :: cs => (false, cs)
  | cs => (false, cs)

/-- Take the maximal run of decimal digits from the front. -/
def takeDigits : List Char → List Char × List Char
  | [] => ([], [])
  | c :: cs =>
    if c.isDigit then
      let (d, r) := takeDigits cs
      (c :: d, r)
    else ([], c :: cs)

/-- Value of a run of decimal digits, most significant first. -/
def digitsToNat (ds : List Char) : Nat :=
  ds.foldl (fun a c => a * 10 + (c.toNat - 48)) 0

/-- Split a character list at the first `e`/`E` exponent marker. -/
def splitExp : List Char → List Char × Option (List Char)
  | [] => ([], none)
  | c :: cs =>
    if c == 'e' || c == 'E' then ([], some cs)
    else
      let (m, e) := splitExp cs
      (c :: m, e)

/-- Parse an unsigned decimal mantissa `digits[.digits]`. -/
def parseMantissa (cs : List Char) : Option Q :=
  let (ip, rest) := takeDigits cs
  match rest with
  | [] => if ip.isEmpty then none else some (qmk (digitsToNat ip : ℤ) 1)
  | '.' :: rest2 =>
    let (fp, rest3) := takeDigits rest2
    if rest3.isEmpty then
      if ip.isEmpty && fp.isEmpty then none
      else some (qmk ((digitsToNat ip : ℤ) * (10 : ℤ) ^ fp.length + (digitsToNat fp : ℤ))
                     (10 ^ fp.length))
    else none
  | _ => none

/-- Parse a signed decimal exponent. -/
def parseExpPart (cs : List Char) : Option ℤ :=
  let (neg, cs2) := splitSign cs
  let (ds, rest) := takeDigits cs2
  if ds.isEmpty || !rest.isEmpty then none
  else some (if neg then -(digitsToNat ds : ℤ) else (digitsToNat ds : ℤ))

/-- Model of Python `float(s)` on decimal literal strings, with exact
fraction arithmetic in place of IEEE doubles; `none` models the
`ValueError` raised on a non-numeric string. -/
def parseFloat (s : String) : Option Q :=
  let (neg, cs) := splitSign s.data
  let (mcs, ecs) := splitExp cs
  match parseMantissa mcs with
  | none => none
  | some m =>
    let base : Q := if neg then qneg m else m
    match ecs with
    | none => some base
    | some e =>
      match parseExpPart e with
      | none => none
      | some k =>
        some (if 0 ≤ k then qmul base (qmk ((10 : ℤ) ^ k.toNat) 1)
              else qmul base (qmk 1 (10 ^ (-k).toNat)))

/-! ### The joined lookup maps (lines 59-61 of monitor.py) -/

/-- Bytes-to-megabytes conversion `x / (1024**2)` applied when the
memory maps are built. -/
def toMB (x : Q) : Q := qdiv x (qmk ((1024 : ℤ) ^ 2) 1)

/-- One entry of a dict comprehension
`(m["metric"]["pod"], m["metric"]["namespace"]): f(float(m["value"][1]))`:
`none` models the uncaught `KeyError`/`ValueError`/`TypeError` raised
for a sample with a missing label, missing value, or non-numeric
value. -/
def entryOf (f : Q → Q) (s : Sample) : Option ((String × String) × Q) :=
  match s.pod, s.ns, s.value with
  | some p, some n, some v => (parseFloat v).map fun q => ((p, n), f q)
  | _, _, _ => none

/-- The dict comprehension over a whole series: the ordered list of
entries, or `none` as soon as one sample raises. -/
def buildMap (f : Q → Q) : List Sample → Option (List ((String × String) × Q))
  | [] => some []
  | s :: rest =>
    match entryOf f s, buildMap f rest with
    | some e, some m => some (e :: m)
    | _, _ => none

/-- Python dict lookup on the entry list: the value of the last entry
with the given key (last-write-wins), as `dict.get(k)` returns. -/
def dictGet (m : List ((String × String) × Q)) (k : String × String) : Option Q :=
  (m.reverse.find? fun e => decide (e.1 = k)).map (·.2)

/-! ### Per-pod derived quantities -/

/-- Python truthiness of an optional float: `None` and `0.0` are
falsy. -/
def truthy : Option Q → Bool
  | none => false
  | some r => !qeqb r (qmk 0 1)

/-- `(usage / request * 100) if request and request > 0 else 0`
(lines 75-76 of monitor.py). -/
def percent (usage : Q) (req : Option Q) : Q :=
  match req with
  | some r => if truthy (some r) && qlt (qmk 0 1) r then qmul (qdiv usage r) (qmk 100 1)
              else qmk 0 1
  | none => qmk 0 1

/-! ### Fixed-point string formatting (model of Python `:.Nf`) -/

/-- Floor of a fraction as an integer. -/
def floorQ (q : Q) : ℤ := Int.fdiv q.num (q.den : ℤ)

/-- Round to nearest integer, ties to even (how CPython formats a
float sitting exactly on a decimal boundary). -/
def roundHalfEven (q : Q) : ℤ :=
  let f := floorQ q
  let frac := qadd q (qneg (qmk f 1))
  if qlt frac (qmk 1 2) then f
  else if qlt (qmk 1 2) frac then f + 1
  else if f % 2 = 0 then f else f + 1

/-- Decimal digits of a natural number, most significant first
(fuel-based to stay structurally recursive). -/
def natDigitsAux : Nat → Nat → List Char
  | 0, _ => []
  | fuel + 1, n =>
    if n < 10 then [Char.ofNat (48 + n)]
    else natDigitsAux fuel (n / 10) ++ [Char.ofNat (48 + n % 10)]

/-- Model of Python `f"{q:.df}"`: fixed-point rendering with `d`
digits after the decimal point. -/
def formatFixed (d : Nat) (q : Q) : String :=
  let n := roundHalfEven (qmul q (qmk ((10 : ℤ) ^ d) 1))
  let ds0 := natDigitsAux (n.natAbs + 1) n.natAbs
  let ds := List.replicate (d + 1 - ds0.length) '0' ++ ds0
  let ip := ds.take (ds.length - d)
  let fp := ds.drop (ds.length - d)
  String.mk ((if n < 0 then ['-'] else []) ++ (if d = 0 then ip else ip ++ '.' :: fp))

/-! ### The threshold rules (lines 81-113 of monitor.py)

Each rule appends a suggestion phrase and a reason phrase when its
condition holds; `suggestionsOf` and `reasonsOf` collect them in the
order the `if` statements appear in the source (no early exit). -/

/-- Line 82: `if cpu_request and cpu_usage < 0.1`. -/
def sugLowCpu (u : Q) : Option Q → List String
  | some r => if !qeqb r (qmk 0 1) && qlt u (qmk 1 10) then ["Reduce CPU requests"] else []
  | none => []

/-- Line 87: `if mem_request and mem_usage < 50`. -/
def sugLowMem (mem : Q) : Option Q → List String
  | some r => if !qeqb r (qmk 0 1) && qlt mem (qmk 50 1) then ["Reduce memory requests"] else []
  | none => []

/-- Line 101: `if cpu_request and cpu_usage > cpu_request`. -/
def sugThrottle (u : Q) : Option Q → List String
  | some r => if !qeqb r (qmk 0 1) && qlt r u then ["Increase CPU requests"] else []
  | none => []

/-- Line 106: `if mem_request and mem_request > mem_usage * 3`. -/
def sugOvercommit (mem : Q) : Option Q → List String
  | some r => if !qeqb r (qmk 0 1) && qlt (qmul mem (qmk 3 1)) r then ["Reduce memory requests"]
              else []
  | none => []

/-- All suggestion phrases appended for one pod, in source order. -/
def suggestionsOf (u mem : Q) (creq mreq : Option Q) : List String :=
  sugLowCpu u creq ++
  sugLowMem mem mreq ++
  (if qlt (qmk 80 1) (percent u creq) then ["Increase CPU limits or add replicas"] else []) ++
  (if qlt (qmk 500 1) mem then ["Increase Memory limits"] else []) ++
  sugThrottle u creq ++
  sugOvercommit mem mreq ++
  (if qlt u (qmk 5 100) && qlt mem (qmk 20 1) then ["Consider reducing replicas"] else [])

/-- Line 84: the reason string of the low-CPU rule. -/
def reasonLowCpu (u : Q) : Option Q → List String
  | some r => if !qeqb r (qmk 0 1) && qlt u (qmk 1 10) then
                ["CPU usage (" ++ formatFixed 2 u ++ " cores) is far lower than request (" ++
                 formatFixed 2 r ++ " cores)"]
              else []
  | none => []

/-- Line 89: the reason string of the low-memory rule. -/
def reasonLowMem (mem : Q) : Option Q → List String
  | some r => if !qeqb r (qmk 0 1) && qlt mem (qmk 50 1) then
                ["Memory usage (" ++ formatFixed 2 mem ++ " MB) is significantly lower than request (" ++
                 formatFixed 2 r ++ " MB)"]
              else []
  | none => []

/-- Line 103: the reason string of the CPU-throttling rule. -/
def reasonThrottle (u : Q) : Option Q → List String
  | some r => if !qeqb r (qmk 0 1) && qlt r u then
                ["CPU usage (" ++ formatFixed 2 u ++ " cores) exceeds requested (" ++
                 formatFixed 2 r ++ " cores)"]
              else []
  | none => []

/-- Line 108: the reason string of the memory-overcommit rule. -/
def reasonOvercommit (mem : Q) : Option Q → List String
  | some r => if !qeqb r (qmk 0 1) && qlt (qmul mem (qmk 3 1)) r then
                ["Memory request (" ++ formatFixed 2 r ++ " MB) is significantly higher than usage (" ++
                 formatFixed 2 mem ++ " MB)"]
              else []
  | none => []

/-- All reason phrases appended for one pod, in source order. -/
def reasonsOf (u mem : Q) (creq mreq : Option Q) : List String :=
  reasonLowCpu u creq ++
  reasonLowMem mem mreq ++
  (if qlt (qmk 80 1) (percent u creq) then
     ["High CPU utilization: " ++ formatFixed 1 (percent u creq) ++ "%"] else []) ++
  (if qlt (qmk 500 1) mem then
     ["Memory usage is high: " ++ formatFixed 2 mem ++ " MB"] else []) ++
  reasonThrottle u creq ++
  reasonOvercommit mem mreq ++
  (if qlt u (qmk 5 100) && qlt mem (qmk 20 1) then ["Pod is using minimal resources"] else [])

/-! ### The per-pod step and the analysis itself -/

/-- Model of Python `sep.join(parts)`. -/
def joinWith (sep : String) : List String → String
  | [] => ""
  | [a] => a
  | a :: b :: rest => a ++ sep ++ joinWith sep (b :: rest)

/-- The recommendation dict built at lines 116-125 of monitor.py for
a pod whose suggestion list is non-empty. -/
def recOf (mm crm mrm : List ((String × String) × Q)) (pod nsp : String) (u : Q) :
    Recommendation :=
  let mem := (dictGet mm (pod, nsp)).getD (qmk 0 1)
  let creq := dictGet crm (pod, nsp)
  let mreq := dictGet mrm (pod, nsp)
  { ns := nsp
    pod_name := pod
    cpu_usage := formatFixed 2 u ++ " cores"
    cpu_percentage := formatFixed 1 (percent u creq) ++ "%"
    memory_usage := formatFixed 2 mem ++ " MB"
    memory_percentage := formatFixed 1 (percent mem mreq) ++ "%"
    suggested_optimization := joinWith ", " (suggestionsOf u mem creq mreq)
    reason := joinWith "; " (reasonsOf u mem creq mreq) }

/-- One iteration of the driving loop (lines 63-128 of monitor.py):
`none` models both the `continue` on a falsy pod/namespace label, the
caught per-pod exception, and the case `suggestions` stays empty. -/
def processSample (mm crm mrm : List ((String × String) × Q)) (c : Sample) :
    Option Recommendation :=
  match c.pod, c.ns with
  | some pod, some nsp =>
    if pod = "" ∨ nsp = "" then none
    else
      match c.value with
      | some v =>
        match parseFloat v with
        | some u =>
          if (suggestionsOf u ((dictGet mm (pod, nsp)).getD (qmk 0 1))
                (dictGet crm (pod, nsp)) (dictGet mrm (pod, nsp))).isEmpty then none
          else some (recOf mm crm mrm pod nsp u)
        | none => none
      | none => none
  | _, _ => none

/-- The embedding of `analyze_usage` (lines 55-130 of monitor.py):
builds the three lookup maps, then folds the driving loop over the
CPU series; `none` models an uncaught exception raised while a map is
being built. -/
def analyze_usage (cpu_data memory_data cpu_requests memory_requests : List Sample) :
    Option (List Recommendation) :=
  match buildMap toMB memory_data, buildMap id cpu_requests, buildMap toMB memory_requests with
  | some mm, some crm, some mrm => some (cpu_data.filterMap (processSample mm crm mrm))
  | _, _, _ => none

/-! ### Auxiliary notions used by the claim statements -/

/-- Whether `pat` occurs as a contiguous segment of `l`. -/
def segAt : List Char → List Char → Bool
  | [], _ => true
  | _ :: _, [] => false
  | p :: ps, c :: cs => p == c && segAt ps cs

/-- Whether `pat` occurs as a contiguous segment anywhere in `l`. -/
def hasSeg (pat : List Char) : List Char → Bool
  | [] => pat.isEmpty
  | c :: cs => segAt pat (c :: cs) || hasSeg pat cs

/-- Whether the string `pat` occurs inside the string `s`. -/
def strContains (s pat : String) : Bool := hasSeg pat.data s.data

/-- The (pod, namespace) pair of a sample (empty for a missing
label; the loop never produces output from such samples). -/
def sampleKey (c : Sample) : String × String := (c.pod.getD "", c.ns.getD "")

/-- The (pod, namespace) pair of an output record. -/
def recKey (r : Recommendation) : String × String := (r.pod_name, r.ns)

/-! ### Helper lemmas -/

theorem data_append (s t : String) : (s ++ t).data = s.data ++ t.data := by
  cases s; cases t; rfl

theorem segAt_append_self (p t : List Char) : segAt p (p ++ t) = true := by
  induction p with
  | nil => rfl
  | cons c cs ih => simp [segAt, ih]

theorem hasSeg_append_self (p t : List Char) : hasSeg p (p ++ t) = true := by
  cases p with
  | nil =>
    cases t with
    | nil => rfl
    | cons c cs => simp [hasSeg, segAt]
  | cons c cs =>
    simp only [hasSeg, List.cons_append, Bool.or_eq_true]
    exact Or.inl (segAt_append_self (c :: cs) t)

theorem strContains_head (sep a : String) (l : List String) :
    strContains (joinWith sep (a :: l)) a = true := by
  cases l with
  | nil =>
    show hasSeg a.data a.data = true
    have := hasSeg_append_self a.data []
    simpa using this
  | cons b rest =>
    show hasSeg a.data (a ++ sep ++ joinWith sep (b :: rest)).data = true
    rw [data_append, data_append, List.append_assoc]
    exact hasSeg_append_self _ _

theorem isEmpty_eq_false_of_ne {α : Type} {l : List α} (h : l ≠ []) : l.isEmpty = false := by
  cases l with
  | nil => exact absurd rfl h
  | cons a t => rfl

theorem processSample_eq_some_of (mm crm mrm : List ((String × String) × Q))
    (pod nsp v : String) (u : Q) (hpe : pod ≠ "") (hne : nsp ≠ "")
    (hu : parseFloat v = some u)
    (hs : suggestionsOf u ((dictGet mm (pod, nsp)).getD (qmk 0 1)) (dictGet crm (pod, nsp))
            (dictGet mrm (pod, nsp)) ≠ []) :
    processSample mm crm mrm ⟨some pod, some nsp, some v⟩ =
      some (recOf mm crm mrm pod nsp u) := by
  simp [processSample, hu, hpe, hne, isEmpty_eq_false_of_ne hs]

theorem processSample_inv {mm crm mrm : List ((String × String) × Q)} {c : Sample}
    {rec : Recommendation} (h : processSample mm crm mrm c = some rec) :
    ∃ pod nsp v u, c.pod = some pod ∧ c.ns = some nsp ∧ pod ≠ "" ∧ nsp ≠ "" ∧
      c.value = some v ∧ parseFloat v = some u ∧
      suggestionsOf u ((dictGet mm (pod, nsp)).getD (qmk 0 1)) (dictGet crm (pod, nsp))
        (dictGet mrm (pod, nsp)) ≠ [] ∧
      rec = recOf mm crm mrm pod nsp u := by
  rcases c with ⟨cp, cn, cv⟩
  cases cp with
  | none => simp [processSample] at h
  | some pod =>
    cases cn with
    | none => simp [processSample] at h
    | some nsp =>
      by_cases he : pod = "" ∨ nsp = ""
      · simp [processSample, he] at h
      · push_neg at he
        cases cv with
        | none => simp [processSample, he] at h
        | some v =>
          cases hu : parseFloat v with
          | none => simp [processSample, he, hu] at h
          | some u =>
            by_cases hs : suggestionsOf u ((dictGet mm (pod, nsp)).getD (qmk 0 1))
                (dictGet crm (pod, nsp)) (dictGet mrm (pod, nsp)) = []
            · simp [processSample, he, hu, hs] at h
            · rw [processSample_eq_some_of mm crm mrm pod nsp v u he.1 he.2 hu hs] at h
              exact ⟨pod, nsp, v, u, rfl, rfl, he.1, he.2, rfl, hu, hs,
                (Option.some_inj.mp h).symm⟩

theorem recKey_processSample {mm crm mrm : List ((String × String) × Q)} {c : Sample}
    {rec : Recommendation} (h : processSample mm crm mrm c = some rec) :
    recKey rec = sampleKey c := by
  obtain ⟨pod, nsp, v, u, hp, hn, _, _, _, _, _, hrec⟩ := processSample_inv h
  subst hrec
  simp [recKey, recOf, sampleKey, hp, hn]

theorem analyze_usage_eq {md cr mr : List Sample} {mm crm mrm : List ((String × String) × Q)}
    (h1 : buildMap toMB md = some mm) (h2 : buildMap id cr = some crm)
    (h3 : buildMap toMB mr = some mrm) (cpu : List Sample) :
    analyze_usage cpu md cr mr = some (cpu.filterMap (processSample mm crm mrm)) := by
  simp [analyze_usage, h1, h2, h3]

theorem buildMap_cons_inv {f : Q → Q} {c : Sample} {l : List Sample}
    {m : List ((String × String) × Q)} (h : buildMap f (c :: l) = some m) :
    ∃ e m', entryOf f c = some e ∧ buildMap f l = some m' ∧ m = e :: m' := by
  cases he : entryOf f c with
  | none => simp [buildMap, he] at h
  | some e =>
    cases hl : buildMap f l with
    | none => simp [buildMap, he, hl] at h
    | some m' =>
      refine ⟨e, m', rfl, rfl, ?_⟩
      simp [buildMap, he, hl] at h
      exact h.symm

theorem buildMap_none_of_mem {f : Q → Q} {b : Sample} {l : List Sample}
    (hb : b ∈ l) (he : entryOf f b = none) : buildMap f l = none := by
  induction l with
  | nil => cases hb
  | cons c rest ih =>
    rcases List.mem_cons.mp hb with h | h
    · subst h
      simp [buildMap, he]
    · cases hc : entryOf f c <;> simp [buildMap, hc, ih h]

theorem buildMap_append_inv {f : Q → Q} {l1 l2 : List Sample}
    {m : List ((String × String) × Q)} (h : buildMap f (l1 ++ l2) = some m) :
    ∃ m1 m2, buildMap f l1 = some m1 ∧ buildMap f l2 = some m2 ∧ m = m1 ++ m2 := by
  induction l1 generalizing m with
  | nil => exact ⟨[], m, rfl, h, rfl⟩
  | cons c rest ih =>
    rw [List.cons_append] at h
    obtain ⟨e, m', he, hm', hm⟩ := buildMap_cons_inv h
    obtain ⟨m1, m2, hb1, hb2, heq⟩ := ih hm'
    exact ⟨e :: m1, m2, by simp [buildMap, he, hb1], hb2, by simp [hm, heq]⟩

theorem entryOf_some_inv {f : Q → Q} {c : Sample} {e : (String × String) × Q}
    (h : entryOf f c = some e) :
    ∃ p n v q, c.pod = some p ∧ c.ns = some n ∧ c.value = some v ∧
      parseFloat v = some q ∧ e = ((p, n), f q) := by
  rcases c with ⟨cp, cn, cv⟩
  cases cp with
  | none => simp [entryOf] at h
  | some p =>
    cases cn with
    | none => simp [entryOf] at h
    | some n =>
      cases cv with
      | none => simp [entryOf] at h
      | some v =>
        cases hq : parseFloat v with
        | none => simp [entryOf, hq] at h
        | some q =>
          simp [entryOf, hq] at h
          exact ⟨p, n, v, q, rfl, rfl, rfl, hq, h.symm⟩

theorem buildMap_mem_entry {f : Q → Q} {l : List Sample} {m : List ((String × String) × Q)}
    (h : buildMap f l = some m) {e : (String × String) × Q} (he : e ∈ m) :
    ∃ c ∈ l, entryOf f c = some e := by
  induction l generalizing m with
  | nil =>
    simp [buildMap] at h
    subst h
    cases he
  | cons c rest ih =>
    obtain ⟨e', m', he', hm', hm⟩ := buildMap_cons_inv h
    subst hm
    rcases List.mem_cons.mp he with h1 | h1
    · subst h1
      exact ⟨c, List.mem_cons_self _ _, he'⟩
    · obtain ⟨c', hc', hc'e⟩ := ih hm' h1
      exact ⟨c', List.mem_cons_of_mem _ hc', hc'e⟩

theorem buildMap_entry_of_mem {f : Q → Q} {l : List Sample} {m : List ((String × String) × Q)}
    (h : buildMap f l = some m) {c : Sample} (hc : c ∈ l) :
    ∃ e, entryOf f c = some e ∧ e ∈ m := by
  induction l generalizing m with
  | nil => cases hc
  | cons c0 rest ih =>
    obtain ⟨e', m', he', hm', hm⟩ := buildMap_cons_inv h
    subst hm
    rcases List.mem_cons.mp hc with h1 | h1
    · subst h1
      exact ⟨e', he', List.mem_cons_self _ _⟩
    · obtain ⟨e, hce, hem⟩ := ih hm' h1
      exact ⟨e, hce, List.mem_cons_of_mem _ hem⟩

theorem find?_append_of_none {α : Type} {p : α → Bool} {l1 l2 : List α}
    (h : ∀ x ∈ l1, p x = false) : (l1 ++ l2).find? p = l2.find? p := by
  induction l1 with
  | nil => rfl
  | cons a t ih =>
    have ha := h a (List.mem_cons_self _ _)
    simp only [List.cons_append, List.find?_cons, ha, cond_false]
    exact ih fun x hx => h x (List.mem_cons_of_mem _ hx)

theorem find?_isSome_of_mem {α : Type} {p : α → Bool} {l : List α} {x : α}
    (hx : x ∈ l) (hp : p x = true) : (l.find? p).isSome = true := by
  induction l with
  | nil => cases hx
  | cons a t ih =>
    rcases List.mem_cons.mp hx with h | h
    · subst h
      simp [List.find?, hp]
    · cases ha : p a <;> simp [List.find?, ha, ih h]

theorem map_filterMap_sublist {α β κ : Type} (g : α → Option β) (fk : β → κ) (hk : α → κ)
    (hcompat : ∀ a b, g a = some b → fk b = hk a) (l : List α) :
    ((l.filterMap g).map fk).Sublist (l.map hk) := by
  induction l with
  | nil => simp
  | cons a t ih =>
    cases hga : g a with
    | none =>
      rw [List.map_cons, List.filterMap_cons_none hga]
      exact ih.cons _
    | some b =>
      rw [List.map_cons, List.filterMap_cons_some hga, List.map_cons, hcompat a b hga]
      exact ih.cons₂ _

theorem filter_eq_nil_of {α : Type} {p : α → Bool} {l : List α}
    (h : ∀ x ∈ l, p x = false) : l.filter p = [] := by
  induction l with
  | nil => rfl
  | cons a t ih =>
    have ha := h a (List.mem_cons_self _ _)
    rw [List.filter_cons_of_neg (by simp [ha])]
    exact ih fun x hx => h x (List.mem_cons_of_mem _ hx)

theorem eq_of_forall₂_eq {α : Type} {l l' : List α}
    (h : List.Forall₂ (fun x y => x = y) l l') : l = l' := by
  induction h with
  | nil => rfl
  | cons hxy _ ih => rw [hxy, ih]

theorem count_bool_ite_single (b : Bool) (s ph : String) (hs : (s == ph) = false) :
    (if b = true then [s] else ([] : List String)).count ph = 0 := by
  split <;> simp [List.count_cons, hs]

theorem count_sugLowCpu_rmr (u : Q) (o : Option Q) :
    (sugLowCpu u o).count "Reduce memory requests" = 0 := by
  cases o with
  | none => rfl
  | some r =>
    rw [sugLowCpu]
    split
    · decide
    · rfl

theorem count_sugThrottle_rmr (u : Q) (o : Option Q) :
    (sugThrottle u o).count "Reduce memory requests" = 0 := by
  cases o with
  | none => rfl
  | some r =>
    rw [sugThrottle]
    split
    · decide
    · rfl

/-! ### The claims -/

/-- C1 counterexample: on the spec scenario (CPU usage `0.05`, CPU
request `1.0`, memory usage 10 MB, no memory request) the output
record's suggestion string is exactly "Reduce CPU requests"; it does
not include "Consider reducing replicas", because the near-idle rule
at line 111 requires `cpu_usage < 0.05` strictly and `0.05 < 0.05` is
false. -/
theorem c1_scenario_counterexample :
    analyze_usage [⟨some "a", some "ns", some "0.05"⟩]
        [⟨some "a", some "ns", some "10485760"⟩]
        [⟨some "a", some "ns", some "1.0"⟩] [] =
      some [{ ns := "ns", pod_name := "a", cpu_usage := "0.05 cores",
              cpu_percentage := "5.0%", memory_usage := "10.00 MB",
              memory_percentage := "0.0%",
              suggested_optimization := "Reduce CPU requests",
              reason := "CPU usage (0.05 cores) is far lower than request (1.00 cores)" }] ∧
    strContains "Reduce CPU requests" "Consider reducing replicas" = false := by
  decide

/-- C1 amended: on the spec scenario, analyze returns one
Recommendation with cpu_usage "0.05 cores", cpu_percentage "5.0%",
memory_usage "10.00 MB", whose suggested_optimization includes
"Reduce CPU requests" but not "Consider reducing replicas" (the
near-idle rule needs `cpu_usage` strictly below 0.05). -/
theorem c1_scenario :
    ∃ rec, analyze_usage [⟨some "a", some "ns", some "0.05"⟩]
            [⟨some "a", some "ns", some "10485760"⟩]
            [⟨some "a", some "ns", some "1.0"⟩] [] = some [rec] ∧
      rec.cpu_usage = "0.05 cores" ∧ rec.cpu_percentage = "5.0%" ∧
      rec.memory_usage = "10.00 MB" ∧
      strContains rec.suggested_optimization "Reduce CPU requests" = true ∧
      strContains rec.suggested_optimization "Consider reducing replicas" = false :=
  ⟨{ ns := "ns", pod_name := "a", cpu_usage := "0.05 cores", cpu_percentage := "5.0%",
     memory_usage := "10.00 MB", memory_percentage := "0.0%",
     suggested_optimization := "Reduce CPU requests",
     reason := "CPU usage (0.05 cores) is far lower than request (1.00 cores)" },
   by decide⟩

/-- C2 counterexample: a non-numeric `value[1]` in the memory-usage
series aborts the whole analysis (the dict comprehension at line 59
runs outside the per-pod `try`), so pod "b" — which is reported when
the malformed sample is absent — is not reported at all. -/
theorem c2_counterexample :
    analyze_usage [⟨some "b", some "ns", some "0.04"⟩]
        [⟨some "a", some "ns", some "abc"⟩] [] [] = none ∧
    analyze_usage [⟨some "b", some "ns", some "0.04"⟩] [] [] [] =
      some [{ ns := "ns", pod_name := "b", cpu_usage := "0.04 cores",
              cpu_percentage := "0.0%", memory_usage := "0.00 MB",
              memory_percentage := "0.0%",
              suggested_optimization := "Consider reducing replicas",
              reason := "Pod is using minimal resources" }] := by
  decide

/-- C2 amended: a non-numeric `value[1]` in the CPU-usage series only
skips the pod carrying it (the other pods of the batch are still
processed, the output is the same as without that sample); but a
non-numeric `value[1]` in any of the other three series raises out of
`analyze_usage` and aborts the whole analysis. -/
theorem c2_malformed_sample :
    (∀ (md cr mr : List Sample) (mm crm mrm : List ((String × String) × Q))
       (pre post : List Sample) (c : Sample) (pod nsp v : String),
       buildMap toMB md = some mm → buildMap id cr = some crm →
       buildMap toMB mr = some mrm →
       c.pod = some pod → c.ns = some nsp → c.value = some v → parseFloat v = none →
       analyze_usage (pre ++ c :: post) md cr mr = analyze_usage (pre ++ post) md cr mr) ∧
    (∀ (cpu md cr mr : List Sample) (b : Sample) (p n v : String),
       b.pod = some p → b.ns = some n → b.value = some v → parseFloat v = none →
       (b ∈ md → analyze_usage cpu md cr mr = none) ∧
       (b ∈ cr → analyze_usage cpu md cr mr = none) ∧
       (b ∈ mr → analyze_usage cpu md cr mr = none)) := by
  constructor
  · intro md cr mr mm crm mrm pre post c pod nsp v h1 h2 h3 hp hn hv hpf
    rw [analyze_usage_eq h1 h2 h3, analyze_usage_eq h1 h2 h3]
    have hc : processSample mm crm mrm c = none := by
      rcases c with ⟨cp, cn, cv⟩
      cases hp; cases hn; cases hv
      by_cases he : pod = "" ∨ nsp = ""
      · simp [processSample, he]
      · simp [processSample, he, hpf]
    rw [List.filterMap_append, List.filterMap_append, List.filterMap_cons_none hc]
  · intro cpu md cr mr b p n v hp hn hv hpf
    have hb : ∀ f : Q → Q, entryOf f b = none := by
      intro f
      rcases b with ⟨bp, bn, bv⟩
      cases hp; cases hn; cases hv
      simp [entryOf, hpf]
    refine ⟨fun hmem => ?_, fun hmem => ?_, fun hmem => ?_⟩
    · rw [analyze_usage, buildMap_none_of_mem hmem (hb _)]
    · rw [analyze_usage, buildMap_none_of_mem hmem (hb _)]
      cases buildMap toMB md <;> rfl
    · rw [analyze_usage, buildMap_none_of_mem hmem (hb _)]
      cases buildMap toMB md <;> cases buildMap id cr <;> rfl

/-- C2 amended, witness: both halves applied at concrete inputs — a
malformed CPU sample is dropped without changing the rest of the
output, and a malformed memory sample aborts. -/
theorem c2_malformed_sample_witness :
    analyze_usage [⟨some "a", some "ns", some "zzz"⟩, ⟨some "b", some "ns", some "0.04"⟩]
        [] [] [] =
      analyze_usage [⟨some "b", some "ns", some "0.04"⟩] [] [] [] ∧
    analyze_usage [⟨some "b", some "ns", some "0.04"⟩]
        [⟨some "a", some "ns", some "zzz"⟩] [] [] = none := by
  constructor
  · exact c2_malformed_sample.1 [] [] [] [] [] [] []
      [⟨some "b", some "ns", some "0.04"⟩] ⟨some "a", some "ns", some "zzz"⟩
      "a" "ns" "zzz" rfl rfl rfl rfl rfl rfl (by decide)
  · exact (c2_malformed_sample.2 [⟨some "b", some "ns", some "0.04"⟩]
      [⟨some "a", some "ns", some "zzz"⟩] [] [] ⟨some "a", some "ns", some "zzz"⟩
      "a" "ns" "zzz" rfl rfl rfl (by decide)).1 (by decide)

/-- C3 counterexample: a CPU-request entry that is present but equal
to `0.0` does not make the low-CPU rule fire — Python `if cpu_request
and ...` is false for `0.0` — so at CPU usage 0.05 with request 0.0
no rule fires at all and the output is empty, against the claim that
"Reduce CPU requests" is suggested at any present request value. -/
theorem c3_counterexample :
    buildMap id [⟨some "a", some "ns", some "0.0"⟩] = some [(("a", "ns"), qmk 0 10)] ∧
    analyze_usage [⟨some "a", some "ns", some "0.05"⟩] []
        [⟨some "a", some "ns", some "0.0"⟩] [] = some [] := by
  decide

/-- C3 amended: for every CPU-usage sample whose key has a CPU-request
entry that is present and nonzero and whose cpu_usage is strictly
below 0.1 cores, the analysis reports that pod with a suggestion
string containing "Reduce CPU requests". -/
theorem c3_low_cpu_rule (cpu_data md cr mr : List Sample)
    (mm crm mrm : List ((String × String) × Q))
    (h1 : buildMap toMB md = some mm) (h2 : buildMap id cr = some crm)
    (h3 : buildMap toMB mr = some mrm)
    (c : Sample) (hc : c ∈ cpu_data) (pod nsp v : String) (u r : Q)
    (hpod : c.pod = some pod) (hns : c.ns = some nsp)
    (hpe : pod ≠ "") (hne : nsp ≠ "")
    (hv : c.value = some v) (hu : parseFloat v = some u)
    (hr : dictGet crm (pod, nsp) = some r) (hr0 : qeqb r (qmk 0 1) = false)
    (hlow : qlt u (qmk 1 10) = true) :
    ∃ out rec, analyze_usage cpu_data md cr mr = some out ∧ rec ∈ out ∧
      rec.pod_name = pod ∧ rec.ns = nsp ∧
      strContains rec.suggested_optimization "Reduce CPU requests" = true := by
  have hfire : sugLowCpu u (dictGet crm (pod, nsp)) = ["Reduce CPU requests"] := by
    rw [hr]
    simp [sugLowCpu, hr0, hlow]
  obtain ⟨rest, hrest⟩ : ∃ rest, suggestionsOf u ((dictGet mm (pod, nsp)).getD (qmk 0 1))
      (dictGet crm (pod, nsp)) (dictGet mrm (pod, nsp)) = "Reduce CPU requests" :: rest := by
    rw [suggestionsOf, hfire]
    exact ⟨_, rfl⟩
  rcases c with ⟨cp, cn, cv⟩
  cases hpod; cases hns; cases hv
  have hps := processSample_eq_some_of mm crm mrm pod nsp v u hpe hne hu (by rw [hrest]; simp)
  refine ⟨_, recOf mm crm mrm pod nsp u, analyze_usage_eq h1 h2 h3 cpu_data,
    List.mem_filterMap.mpr ⟨_, hc, hps⟩, rfl, rfl, ?_⟩
  show strContains (joinWith ", " (suggestionsOf u ((dictGet mm (pod, nsp)).getD (qmk 0 1))
    (dictGet crm (pod, nsp)) (dictGet mrm (pod, nsp)))) "Reduce CPU requests" = true
  rw [hrest]
  exact strContains_head _ _ _

/-- C3 amended, witness: the rule applied to one concrete pod with a
present nonzero request `1.0` and usage `0.05`. -/
theorem c3_low_cpu_rule_witness :
    ∃ out rec, analyze_usage [⟨some "a", some "ns", some "0.05"⟩] []
        [⟨some "a", some "ns", some "1.0"⟩] [] = some out ∧ rec ∈ out ∧
      rec.pod_name = "a" ∧ rec.ns = "ns" ∧
      strContains rec.suggested_optimization "Reduce CPU requests" = true :=
  c3_low_cpu_rule [⟨some "a", some "ns", some "0.05"⟩] [] [⟨some "a", some "ns", some "1.0"⟩] []
    [] [(("a", "ns"), qmk 10 10)] [] rfl (by decide) rfl
    ⟨some "a", some "ns", some "0.05"⟩ (by decide) "a" "ns" "0.05" (qmk 5 100) (qmk 10 10)
    rfl rfl (by decide) (by decide) rfl (by decide) (by decide) (by decide) (by decide)

/-- C4: a pod whose CPU sample satisfies both the low-CPU condition
(nonzero request present, usage < 0.1) and the high-memory condition
(memory usage > 500 MB), and whose key occurs in no other CPU sample,
yields exactly one Recommendation; its suggestion string is the
", "-join of the fired phrases with "Reduce CPU requests" before
"Increase Memory limits" (rules are evaluated in order without early
exit). -/
theorem c4_rule_independence (md cr mr : List Sample)
    (mm crm mrm : List ((String × String) × Q))
    (h1 : buildMap toMB md = some mm) (h2 : buildMap id cr = some crm)
    (h3 : buildMap toMB mr = some mrm)
    (pre post : List Sample) (c : Sample) (pod nsp v : String) (u r : Q)
    (hpod : c.pod = some pod) (hns : c.ns = some nsp) (hpe : pod ≠ "") (hne : nsp ≠ "")
    (hv : c.value = some v) (hu : parseFloat v = some u)
    (huniq : ∀ c' ∈ pre ++ post, sampleKey c' ≠ (pod, nsp))
    (hr : dictGet crm (pod, nsp) = some r) (hr0 : qeqb r (qmk 0 1) = false)
    (hlow : qlt u (qmk 1 10) = true)
    (hhigh : qlt (qmk 500 1) ((dictGet mm (pod, nsp)).getD (qmk 0 1)) = true) :
    ∃ out rec l2 l3,
      analyze_usage (pre ++ c :: post) md cr mr = some out ∧
      out.filter (fun x => decide (recKey x = (pod, nsp))) = [rec] ∧
      suggestionsOf u ((dictGet mm (pod, nsp)).getD (qmk 0 1)) (dictGet crm (pod, nsp))
          (dictGet mrm (pod, nsp)) =
        "Reduce CPU requests" :: (l2 ++ "Increase Memory limits" :: l3) ∧
      rec.suggested_optimization =
        joinWith ", " ("Reduce CPU requests" :: (l2 ++ "Increase Memory limits" :: l3)) := by
  have hfire1 : sugLowCpu u (dictGet crm (pod, nsp)) = ["Reduce CPU requests"] := by
    rw [hr]
    simp [sugLowCpu, hr0, hlow]
  have hdec : suggestionsOf u ((dictGet mm (pod, nsp)).getD (qmk 0 1)) (dictGet crm (pod, nsp))
      (dictGet mrm (pod, nsp)) =
      "Reduce CPU requests" ::
        ((sugLowMem ((dictGet mm (pod, nsp)).getD (qmk 0 1)) (dictGet mrm (pod, nsp)) ++
          (if qlt (qmk 80 1) (percent u (dictGet crm (pod, nsp))) then
             ["Increase CPU limits or add replicas"] else [])) ++
         "Increase Memory limits" ::
           (sugThrottle u (dictGet crm (pod, nsp)) ++
            (sugOvercommit ((dictGet mm (pod, nsp)).getD (qmk 0 1)) (dictGet mrm (pod, nsp)) ++
             (if qlt u (qmk 5 100) && qlt ((dictGet mm (pod, nsp)).getD (qmk 0 1)) (qmk 20 1)
              then ["Consider reducing replicas"] else [])))) := by
    rw [suggestionsOf, hfire1, hhigh]
    simp
  rcases c with ⟨cp, cn, cv⟩
  cases hpod; cases hns; cases hv
  have hps := processSample_eq_some_of mm crm mrm pod nsp v u hpe hne hu
    (by rw [hdec]; simp)
  have hpre : (pre.filterMap (processSample mm crm mrm)).filter
      (fun x => decide (recKey x = (pod, nsp))) = [] := by
    refine filter_eq_nil_of fun x hx => ?_
    obtain ⟨c', hc', hgc'⟩ := List.mem_filterMap.mp hx
    have hk := recKey_processSample hgc'
    have := huniq c' (List.mem_append.mpr (Or.inl hc'))
    simp only [decide_eq_false_iff_not]
    rw [hk]
    exact this
  have hpost : (post.filterMap (processSample mm crm mrm)).filter
      (fun x => decide (recKey x = (pod, nsp))) = [] := by
    refine filter_eq_nil_of fun x hx => ?_
    obtain ⟨c', hc', hgc'⟩ := List.mem_filterMap.mp hx
    have hk := recKey_processSample hgc'
    have := huniq c' (List.mem_append.mpr (Or.inr hc'))
    simp only [decide_eq_false_iff_not]
    rw [hk]
    exact this
  refine ⟨_, recOf mm crm mrm pod nsp u, _, _, analyze_usage_eq h1 h2 h3 _, ?_, hdec, ?_⟩
  · rw [List.filterMap_append, List.filterMap_cons_some hps, List.filter_append, hpre,
      List.filter_cons_of_pos (by simp [recKey, recOf]), hpost]
    rfl
  · show joinWith ", " (suggestionsOf u ((dictGet mm (pod, nsp)).getD (qmk 0 1))
      (dictGet crm (pod, nsp)) (dictGet mrm (pod, nsp))) = _
    rw [hdec]

/-- C4, witness: pod "a" with usage 0.05, request 1.0 and memory
usage 600 MB fires both rules; the single filtered output record
joins "Reduce CPU requests" before "Increase Memory limits". -/
theorem c4_rule_independence_witness :
    ∃ out rec l2 l3,
      analyze_usage [⟨some "a", some "ns", some "0.05"⟩]
          [⟨some "a", some "ns", some "629145600"⟩]
          [⟨some "a", some "ns", some "1.0"⟩] [] = some out ∧
      out.filter (fun x => decide (recKey x = ("a", "ns"))) = [rec] ∧
      suggestionsOf (qmk 5 100)
          ((dictGet [(("a", "ns"), toMB (qmk 629145600 1))] ("a", "ns")).getD (qmk 0 1))
          (dictGet [(("a", "ns"), qmk 10 10)] ("a", "ns")) (dictGet [] ("a", "ns")) =
        "Reduce CPU requests" :: (l2 ++ "Increase Memory limits" :: l3) ∧
      rec.suggested_optimization =
        joinWith ", " ("Reduce CPU requests" :: (l2 ++ "Increase Memory limits" :: l3)) :=
  c4_rule_independence [⟨some "a", some "ns", some "629145600"⟩]
    [⟨some "a", some "ns", some "1.0"⟩] []
    [(("a", "ns"), toMB (qmk 629145600 1))] [(("a", "ns"), qmk 10 10)] []
    (by decide) (by decide) rfl
    [] [] ⟨some "a", some "ns", some "0.05"⟩ "a" "ns" "0.05" (qmk 5 100) (qmk 10 10)
    rfl rfl (by decide) (by decide) rfl (by decide)
    (by intro c' hc'; cases hc') (by decide) (by decide) (by decide) (by decide)

/-- C5 counterexample: with an empty CPU series but a non-numeric
sample in the memory series, analyze raises (returns no list at all)
instead of returning the empty recommendation list, so the "regardless
of the contents of the other three series" part fails. -/
theorem c5_counterexample :
    analyze_usage [] [⟨some "a", some "ns", some "abc"⟩] [] [] = none ∧
    analyze_usage [] [⟨some "a", some "ns", some "abc"⟩] [] [] ≠ some [] := by
  decide

/-- C5 amended: when the three joined series are well-formed (their
lookup maps build), an empty CPU series yields the empty
recommendation list, and a well-formed CPU sample for which no
threshold rule fires contributes nothing: removing it leaves the
output unchanged. -/
theorem c5_no_rule_no_output :
    (∀ (md cr mr : List Sample) (mm crm mrm : List ((String × String) × Q)),
       buildMap toMB md = some mm → buildMap id cr = some crm →
       buildMap toMB mr = some mrm → analyze_usage [] md cr mr = some []) ∧
    (∀ (md cr mr : List Sample) (mm crm mrm : List ((String × String) × Q))
       (pre post : List Sample) (c : Sample) (pod nsp v : String) (u : Q),
       buildMap toMB md = some mm → buildMap id cr = some crm →
       buildMap toMB mr = some mrm →
       c.pod = some pod → c.ns = some nsp → c.value = some v → parseFloat v = some u →
       suggestionsOf u ((dictGet mm (pod, nsp)).getD (qmk 0 1)) (dictGet crm (pod, nsp))
         (dictGet mrm (pod, nsp)) = [] →
       analyze_usage (pre ++ c :: post) md cr mr = analyze_usage (pre ++ post) md cr mr) := by
  constructor
  · intro md cr mr mm crm mrm h1 h2 h3
    rw [analyze_usage_eq h1 h2 h3]
    rfl
  · intro md cr mr mm crm mrm pre post c pod nsp v u h1 h2 h3 hp hn hv hsug hnone
    rw [analyze_usage_eq h1 h2 h3, analyze_usage_eq h1 h2 h3]
    have hc : processSample mm crm mrm c = none := by
      rcases c with ⟨cp, cn, cv⟩
      cases hp; cases hn; cases hv
      by_cases he : pod = "" ∨ nsp = ""
      · simp [processSample, he]
      · simp [processSample, he, hsug, hnone]
    rw [List.filterMap_append, List.filterMap_append, List.filterMap_cons_none hc]

/-- C5 amended, witness: the empty CPU series gives the empty output,
and removing a pod for which no rule fires (usage 0.07, no requests,
no memory data) leaves the output unchanged. -/
theorem c5_no_rule_no_output_witness :
    analyze_usage [] [] [] [] = some [] ∧
    analyze_usage [⟨some "b", some "ns", some "0.07"⟩] [] [] [] =
      analyze_usage [] [] [] [] := by
  constructor
  · exact c5_no_rule_no_output.1 [] [] [] [] [] [] rfl rfl rfl
  · exact c5_no_rule_no_output.2 [] [] [] [] [] [] [] []
      ⟨some "b", some "ns", some "0.07"⟩ "b" "ns" "0.07" (qmk 7 100)
      rfl rfl rfl rfl rfl rfl (by decide) (by decide)

/-- C6: the output records keep the relative order of the CPU-usage
samples that produced them (their key sequence is a sublist of the
CPU series key sequence), and every output record stems from a sample
of the CPU series — pods absent from that series never appear. -/
theorem c6_output_order (cpu md cr mr : List Sample) (out : List Recommendation)
    (h : analyze_usage cpu md cr mr = some out) :
    (out.map recKey).Sublist (cpu.map sampleKey) ∧
    ∀ rec ∈ out, ∃ c ∈ cpu, c.pod = some rec.pod_name ∧ c.ns = some rec.ns := by
  cases hm1 : buildMap toMB md with
  | none => rw [analyze_usage, hm1] at h; cases h
  | some mm =>
    cases hm2 : buildMap id cr with
    | none =>
      rw [analyze_usage, hm1, hm2] at h
      cases hm3 : buildMap toMB mr <;> rw [hm3] at h <;> cases h
    | some crm =>
      cases hm3 : buildMap toMB mr with
      | none => rw [analyze_usage, hm1, hm2, hm3] at h; cases h
      | some mrm =>
        rw [analyze_usage_eq hm1 hm2 hm3] at h
        have hout : out = cpu.filterMap (processSample mm crm mrm) :=
          (Option.some_inj.mp h).symm
        subst hout
        constructor
        · exact map_filterMap_sublist _ _ _
            (fun a b hab => recKey_processSample hab) cpu
        · intro rec hrec
          obtain ⟨c, hc, hgc⟩ := List.mem_filterMap.mp hrec
          obtain ⟨pod, nsp, v, u, hp, hn, _, _, _, _, _, hrec'⟩ := processSample_inv hgc
          subst hrec'
          exact ⟨c, hc, by simpa [recOf] using hp, by simpa [recOf] using hn⟩

/-- C6, witness: applied to a one-sample CPU series producing one
record. -/
theorem c6_output_order_witness :
    (([{ ns := "ns", pod_name := "b", cpu_usage := "0.04 cores",
         cpu_percentage := "0.0%", memory_usage := "0.00 MB",
         memory_percentage := "0.0%",
         suggested_optimization := "Consider reducing replicas",
         reason := "Pod is using minimal resources" }] :
        List Recommendation).map recKey).Sublist
      (([⟨some "b", some "ns", some "0.04"⟩] : List Sample).map sampleKey) ∧
    ∀ rec ∈ ([{ ns := "ns", pod_name := "b", cpu_usage := "0.04 cores",
                cpu_percentage := "0.0%", memory_usage := "0.00 MB",
                memory_percentage := "0.0%",
                suggested_optimization := "Consider reducing replicas",
                reason := "Pod is using minimal resources" }] : List Recommendation),
      ∃ c ∈ ([⟨some "b", some "ns", some "0.04"⟩] : List Sample),
        c.pod = some rec.pod_name ∧ c.ns = some rec.ns :=
  c6_output_order [⟨some "b", some "ns", some "0.04"⟩] [] [] [] _ (by decide)

/-- C7: for a processed CPU sample whose key has no CPU-request entry,
or a CPU-request entry that is not strictly positive, the reported
cpu_percentage is the formatted zero "0.0%" (the division at line 75
is never performed); likewise for memory_percentage with respect to
the memory request. -/
theorem c7_percentage_guard (mm crm mrm : List ((String × String) × Q))
    (c : Sample) (rec : Recommendation) (pod nsp : String)
    (hpod : c.pod = some pod) (hns : c.ns = some nsp)
    (h : processSample mm crm mrm c = some rec) :
    ((dictGet crm (pod, nsp) = none ∨
       ∃ r, dictGet crm (pod, nsp) = some r ∧ qlt (qmk 0 1) r = false) →
      rec.cpu_percentage = "0.0%") ∧
    ((dictGet mrm (pod, nsp) = none ∨
       ∃ r, dictGet mrm (pod, nsp) = some r ∧ qlt (qmk 0 1) r = false) →
      rec.memory_percentage = "0.0%") := by
  obtain ⟨pod', nsp', v, u, hp', hn', _, _, hv, hu, hne, hrec⟩ := processSample_inv h
  rw [hpod] at hp'
  rw [hns] at hn'
  cases Option.some_inj.mp hp'
  cases Option.some_inj.mp hn'
  subst hrec
  constructor
  · rintro (hnone | ⟨r, hr, hr0⟩)
    · show formatFixed 1 (percent u (dictGet crm (pod, nsp))) ++ "%" = "0.0%"
      rw [hnone]
      show formatFixed 1 (qmk 0 1) ++ "%" = "0.0%"
      decide
    · show formatFixed 1 (percent u (dictGet crm (pod, nsp))) ++ "%" = "0.0%"
      rw [hr]
      show formatFixed 1 (if truthy (some r) && qlt (qmk 0 1) r then
        qmul (qdiv u r) (qmk 100 1) else qmk 0 1) ++ "%" = "0.0%"
      rw [hr0, Bool.and_false, if_neg (by simp)]
      decide
  · rintro (hnone | ⟨r, hr, hr0⟩)
    · show formatFixed 1 (percent ((dictGet mm (pod, nsp)).getD (qmk 0 1))
        (dictGet mrm (pod, nsp))) ++ "%" = "0.0%"
      rw [hnone]
      show formatFixed 1 (qmk 0 1) ++ "%" = "0.0%"
      decide
    · show formatFixed 1 (percent ((dictGet mm (pod, nsp)).getD (qmk 0 1))
        (dictGet mrm (pod, nsp))) ++ "%" = "0.0%"
      rw [hr]
      show formatFixed 1 (if truthy (some r) && qlt (qmk 0 1) r then
        qmul (qdiv ((dictGet mm (pod, nsp)).getD (qmk 0 1)) r) (qmk 100 1)
        else qmk 0 1) ++ "%" = "0.0%"
      rw [hr0, Bool.and_false, if_neg (by simp)]
      decide

/-- C7, witness: pod "b" with no request entries at all reports
"0.0%" for both percentages. -/
theorem c7_percentage_guard_witness :
    ({ ns := "ns", pod_name := "b", cpu_usage := "0.04 cores",
       cpu_percentage := "0.0%", memory_usage := "0.00 MB",
       memory_percentage := "0.0%",
       suggested_optimization := "Consider reducing replicas",
       reason := "Pod is using minimal resources" } :
      Recommendation).cpu_percentage = "0.0%" ∧
    ({ ns := "ns", pod_name := "b", cpu_usage := "0.04 cores",
       cpu_percentage := "0.0%", memory_usage := "0.00 MB",
       memory_percentage := "0.0%",
       suggested_optimization := "Consider reducing replicas",
       reason := "Pod is using minimal resources" } :
      Recommendation).memory_percentage = "0.0%" := by
  have h := c7_percentage_guard [] [] [] ⟨some "b", some "ns", some "0.04"⟩
    { ns := "ns", pod_name := "b", cpu_usage := "0.04 cores",
      cpu_percentage := "0.0%", memory_usage := "0.00 MB",
      memory_percentage := "0.0%",
      suggested_optimization := "Consider reducing replicas",
      reason := "Pod is using minimal resources" } "b" "ns"
    rfl rfl (by decide)
  exact ⟨h.1 (Or.inl rfl), h.2 (Or.inl rfl)⟩

/-- C9: the analysis is a pure function of its four argument
sequences — on element-for-element identical inputs it returns
identical outputs. -/
theorem c9_deterministic (a b c d a2 b2 c2 d2 : List Sample)
    (h1 : List.Forall₂ (fun x y => x = y) a a2)
    (h2 : List.Forall₂ (fun x y => x = y) b b2)
    (h3 : List.Forall₂ (fun x y => x = y) c c2)
    (h4 : List.Forall₂ (fun x y => x = y) d d2) :
    analyze_usage a b c d = analyze_usage a2 b2 c2 d2 := by
  rw [eq_of_forall₂_eq h1, eq_of_forall₂_eq h2, eq_of_forall₂_eq h3, eq_of_forall₂_eq h4]

/-- C9, witness: applied to a concrete pair of identical inputs. -/
theorem c9_deterministic_witness :
    analyze_usage [⟨some "b", some "ns", some "0.04"⟩] [] [] [] =
      analyze_usage [⟨some "b", some "ns", some "0.04"⟩] [] [] [] :=
  c9_deterministic [⟨some "b", some "ns", some "0.04"⟩] [] [] []
    [⟨some "b", some "ns", some "0.04"⟩] [] [] []
    (List.Forall₂.cons rfl List.Forall₂.nil) List.Forall₂.nil
    List.Forall₂.nil List.Forall₂.nil

/-- C8: the lookup map built for a joined series maps every duplicated
(pod, namespace) key to the value of the last sample carrying it
(last-write-wins), and holds an entry for every key occurring in the
series. -/
theorem c8_index_last_write_wins (f : Q → Q) (l : List Sample)
    (m : List ((String × String) × Q)) (h : buildMap f l = some m) :
    (∀ (pre post : List Sample) (c : Sample) (p n v : String) (q : Q),
       l = pre ++ c :: post → c.pod = some p → c.ns = some n → c.value = some v →
       parseFloat v = some q →
       (∀ c' ∈ post, ¬(c'.pod = some p ∧ c'.ns = some n)) →
       dictGet m (p, n) = some (f q)) ∧
    (∀ c ∈ l, ∀ p n, c.pod = some p → c.ns = some n →
       (dictGet m (p, n)).isSome = true) := by
  constructor
  · intro pre post c p n v q hl hp hn hv hq hnot
    subst hl
    obtain ⟨m1, m2, hb1, hb2, hm⟩ := buildMap_append_inv h
    obtain ⟨e, m3, he, hb3, hm2⟩ := buildMap_cons_inv hb2
    have he' : e = ((p, n), f q) := by
      rcases c with ⟨cp, cn, cv⟩
      cases hp; cases hn; cases hv
      simp [entryOf, hq] at he
      exact he.symm
    subst he'
    subst hm2
    subst hm
    rw [dictGet, List.reverse_append, List.reverse_cons, List.append_assoc]
    rw [find?_append_of_none ?hnomatch]
    case hnomatch =>
      intro x hx
      obtain ⟨c', hc', hec'⟩ := buildMap_mem_entry hb3 (List.mem_reverse.mp hx)
      obtain ⟨p', n', v', q', hp', hn', _, _, hx'⟩ := entryOf_some_inv hec'
      subst hx'
      simp only [decide_eq_false_iff_not]
      intro hkey
      have hk1 : p' = p := congrArg Prod.fst hkey
      have hk2 : n' = n := congrArg Prod.snd hkey
      subst hk1; subst hk2
      exact hnot c' hc' ⟨hp', hn'⟩
    rw [List.singleton_append, List.find?_cons, decide_eq_true rfl]
    rfl
  · intro c hc p n hp hn
    obtain ⟨e, hce, hem⟩ := buildMap_entry_of_mem h hc
    obtain ⟨p', n', v, q, hp', hn', hv', hq', he'⟩ := entryOf_some_inv hce
    rw [hp] at hp'
    rw [hn] at hn'
    cases Option.some_inj.mp hp'
    cases Option.some_inj.mp hn'
    subst he'
    rw [dictGet]
    have hsome := find?_isSome_of_mem (p := fun e => decide (e.1 = (p, n)))
      (List.mem_reverse.mpr hem) (decide_eq_true rfl)
    obtain ⟨x, hx⟩ := Option.isSome_iff_exists.mp hsome
    rw [hx]
    rfl

/-- C8, witness: with two samples for the same key, lookup returns the
value of the second (last) one, and the key is present. -/
theorem c8_index_last_write_wins_witness :
    dictGet [(("a", "ns"), qmk 10 10), (("a", "ns"), qmk 2 1)] ("a", "ns") =
      some (qmk 2 1) ∧
    (dictGet [(("a", "ns"), qmk 10 10), (("a", "ns"), qmk 2 1)] ("a", "ns")).isSome = true := by
  have h := c8_index_last_write_wins id
    [⟨some "a", some "ns", some "1.0"⟩, ⟨some "a", some "ns", some "2"⟩]
    [(("a", "ns"), qmk 10 10), (("a", "ns"), qmk 2 1)] (by decide)
  constructor
  · exact h.1 [⟨some "a", some "ns", some "1.0"⟩] [] ⟨some "a", some "ns", some "2"⟩
      "a" "ns" "2" (qmk 2 1) rfl rfl rfl rfl (by decide) (by intro c' hc'; cases hc')
  · exact h.2 ⟨some "a", some "ns", some "2"⟩ (by decide) "a" "ns" rfl rfl

/-- C10: a pod present in the CPU series whose key is absent from the
memory map but has a strictly positive memory request fires both the
low-memory rule (line 87: usage 0 < 50) and the overcommit rule (line
106: request > 0 * 3), so "Reduce memory requests" occurs twice in
its suggestion list, whose ", "-join is the reported suggestion
string. -/
theorem c10_double_memory_phrase (cpu md cr mr : List Sample)
    (mm crm mrm : List ((String × String) × Q))
    (h1 : buildMap toMB md = some mm) (h2 : buildMap id cr = some crm)
    (h3 : buildMap toMB mr = some mrm)
    (c : Sample) (hc : c ∈ cpu) (pod nsp v : String) (u r : Q)
    (hpod : c.pod = some pod) (hns : c.ns = some nsp) (hpe : pod ≠ "") (hne : nsp ≠ "")
    (hv : c.value = some v) (hu : parseFloat v = some u)
    (hmm : dictGet mm (pod, nsp) = none)
    (hmr : dictGet mrm (pod, nsp) = some r) (hr : qlt (qmk 0 1) r = true) :
    ∃ out rec, analyze_usage cpu md cr mr = some out ∧ rec ∈ out ∧
      recKey rec = (pod, nsp) ∧
      (suggestionsOf u (qmk 0 1) (dictGet crm (pod, nsp)) (some r)).count
        "Reduce memory requests" = 2 ∧
      rec.suggested_optimization =
        joinWith ", " (suggestionsOf u (qmk 0 1) (dictGet crm (pod, nsp)) (some r)) := by
  have hnum : 0 < r.num := by
    simp only [qlt, qmk, decide_eq_true_eq] at hr
    omega
  have hr0 : qeqb r (qmk 0 1) = false := by
    simp only [qeqb, qmk, decide_eq_false_iff_not]
    omega
  have hfire2 : sugLowMem (qmk 0 1) (some r) = ["Reduce memory requests"] := by
    have hcond : (!qeqb r (qmk 0 1) && qlt (qmk 0 1) (qmk 50 1)) = true := by
      rw [hr0]
      decide
    simp [sugLowMem, hcond]
  have hfire6 : sugOvercommit (qmk 0 1) (some r) = ["Reduce memory requests"] := by
    have hcond : (!qeqb r (qmk 0 1) && qlt (qmul (qmk 0 1) (qmk 3 1)) r) = true := by
      rw [hr0]
      simp only [qlt, qmul, qmk, Bool.not_false, Bool.true_and, decide_eq_true_eq]
      omega
    simp [sugOvercommit, hcond]
  have hcount : ∀ o : Option Q, (suggestionsOf u (qmk 0 1) o (some r)).count
      "Reduce memory requests" = 2 := by
    intro o
    have hA := count_bool_ite_single (qlt (qmk 80 1) (percent u o))
      "Increase CPU limits or add replicas" "Reduce memory requests" (by decide)
    have hB := count_bool_ite_single (qlt (qmk 500 1) (qmk 0 1))
      "Increase Memory limits" "Reduce memory requests" (by decide)
    have hC := count_bool_ite_single (qlt u (qmk 5 100) && qlt (qmk 0 1) (qmk 20 1))
      "Consider reducing replicas" "Reduce memory requests" (by decide)
    rw [suggestionsOf, hfire2, hfire6]
    simp only [List.count_append, count_sugLowCpu_rmr, count_sugThrottle_rmr, hA, hB, hC]
    decide
  have hmem0 : (dictGet mm (pod, nsp)).getD (qmk 0 1) = qmk 0 1 := by rw [hmm]; rfl
  have hnonempty : suggestionsOf u ((dictGet mm (pod, nsp)).getD (qmk 0 1))
      (dictGet crm (pod, nsp)) (dictGet mrm (pod, nsp)) ≠ [] := by
    rw [hmem0, hmr]
    intro heq
    have := hcount (dictGet crm (pod, nsp))
    rw [heq] at this
    cases this
  rcases c with ⟨cp, cn, cv⟩
  cases hpod; cases hns; cases hv
  have hps := processSample_eq_some_of mm crm mrm pod nsp v u hpe hne hu hnonempty
  refine ⟨_, _, analyze_usage_eq h1 h2 h3 _, List.mem_filterMap.mpr ⟨_, hc, hps⟩, rfl,
    hcount _, ?_⟩
  show joinWith ", " (suggestionsOf u ((dictGet mm (pod, nsp)).getD (qmk 0 1))
    (dictGet crm (pod, nsp)) (dictGet mrm (pod, nsp))) = _
  rw [hmem0, hmr]

/-- C10, witness: pod "a" with CPU usage 0.5, no memory sample and a
1 MB memory request gets "Reduce memory requests" twice. -/
theorem c10_double_memory_phrase_witness :
    ∃ out rec, analyze_usage [⟨some "a", some "ns", some "0.5"⟩] [] []
        [⟨some "a", some "ns", some "1048576"⟩] = some out ∧ rec ∈ out ∧
      recKey rec = ("a", "ns") ∧
      (suggestionsOf (qmk 5 10) (qmk 0 1) (dictGet [] ("a", "ns"))
        (some (qmk 1048576 1048576))).count "Reduce memory requests" = 2 ∧
      rec.suggested_optimization =
        joinWith ", " (suggestionsOf (qmk 5 10) (qmk 0 1) (dictGet [] ("a", "ns"))
          (some (qmk 1048576 1048576))) :=
  c10_double_memory_phrase [⟨some "a", some "ns", some "0.5"⟩] [] []
    [⟨some "a", some "ns", some "1048576"⟩] [] []
    [(("a", "ns"), qmk 1048576 1048576)] rfl rfl (by decide)
    ⟨some "a", some "ns", some "0.5"⟩ (by decide) "a" "ns" "0.5"
    (qmk 5 10) (qmk 1048576 1048576) rfl rfl (by decide) (by decide) rfl (by decide)
    rfl (by decide) (by decide)

end Monitor
